import Mathlib

/-!
Verification of the NoteFlux single-file note-taking web application
(`src/app.py`) against its natural-language specification.

The development shallowly embeds the Python program:
* JSON values (the result of `json.loads`) become the inductive `JValue`;
  since `json.loads` produces dicts with unique keys (later duplicate keys
  overwrite earlier ones), object field lists are treated as association
  lists and our parser deduplicates keys with last-wins semantics.
* Python `str()` coercion and truthiness become `pyStr` / `pyTruthy`.
  JSON numbers are modelled as integers (no claim involves floats), and
  `repr` of nested containers approximates CPython's quoting of inner
  strings; no claim depends on the exact repr text, only on whether it is
  empty.
* The persistent store (`store.json` plus the `memory_store` global)
  becomes `StoreState`; filesystem failures (`OSError`) are modelled by a
  `diskOk : Bool` parameter.
* Randomness (`secrets.token_hex`) and clock reads
  (`datetime.now().isoformat()`) are modelled by explicit generator
  parameters (`Gens`), one draw per use site.
* `hmac.new(SESSION_SECRET, payload, sha256).hexdigest()` is abstracted as
  an arbitrary function `mac : String → String`; no claim depends on the
  internals of HMAC, only on comparing the received signature with the
  recomputed one.
-/

set_option maxHeartbeats 1000000

namespace NoteFlux

/-- JSON value as produced by `json.loads`. Numbers are restricted to
integers; no specification claim involves floating-point payloads. -/
inductive JValue where
  | null
  | bool (b : Bool)
  | num (n : Int)
  | str (s : String)
  | arr (xs : List JValue)
  | obj (kvs : List (String × JValue))
deriving Inhabited

/-- Python truthiness (`bool(v)`) of a JSON value: `None`/`False`/`0`/empty
string/empty list/empty dict are falsy, everything else truthy. -/
def pyTruthy : JValue → Bool
  | .null => false
  | .bool b => b
  | .num n => n != 0
  | .str s => s != ""
  | .arr xs => !xs.isEmpty
  | .obj kvs => !kvs.isEmpty

/-- Decimal digit accumulator for rendering naturals, most significant
digit first. -/
def natDigitsAux : Nat → List Char → List Char
  | 0, acc => acc
  | n + 1, acc => natDigitsAux ((n + 1) / 10) (Nat.digitChar ((n + 1) % 10) :: acc)
decreasing_by exact Nat.div_lt_self (Nat.succ_pos n) (by omega)

/-- Decimal rendering of a natural number, as Python `str` does. -/
def natStr (n : Nat) : String := if n = 0 then "0" else ⟨natDigitsAux n []⟩

/-- Decimal rendering of an integer, as Python `str` does. -/
def intStr : Int → String
  | .ofNat n => natStr n
  | .negSucc n => "-" ++ natStr (n + 1)

mutual

/-- Python `repr` of a JSON value (approximation: inner strings are
rendered between plain single quotes; claims only rely on the result being
non-empty, which the surrounding brackets/quotes guarantee). -/
def pyRepr : JValue → String
  | .null => "None"
  | .bool true => "True"
  | .bool false => "False"
  | .num n => intStr n
  | .str s => "\x27" ++ s ++ "\x27"
  | .arr xs => "[" ++ pyReprList xs ++ "]"
  | .obj kvs => "\x7b" ++ pyReprObj kvs ++ "\x7d"

/-- Comma-separated repr of list elements. -/
def pyReprList : List JValue → String
  | [] => ""
  | [x] => pyRepr x
  | x :: xs => pyRepr x ++ ", " ++ pyReprList xs

/-- Comma-separated repr of dict entries. -/
def pyReprObj : List (String × JValue) → String
  | [] => ""
  | [(k, v)] => "\x27" ++ k ++ "\x27: " ++ pyRepr v
  | (k, v) :: kvs => "\x27" ++ k ++ "\x27: " ++ pyRepr v ++ ", " ++ pyReprObj kvs

end

/-- Python `str()` coercion of a JSON value. -/
def pyStr : JValue → String
  | .str s => s
  | v => pyRepr v

/-- Python `dict.get` without default: first (only, post-`json.loads`)
binding of the key. -/
def jget (kvs : List (String × JValue)) (k : String) : Option JValue :=
  List.lookup k kvs

/-- A note record after normalization (`src/app.py` lines 43-50). -/
structure Note where
  id : String
  title : String
  content : String
  updatedAt : String
deriving Repr, DecidableEq

/-- The normalized store document (`src/app.py` line 24). -/
structure Store where
  sitePassword : String
  adminPassword : String
  notes : List Note
deriving Repr, DecidableEq

/-- `default_store()` from `src/app.py`. -/
def default_store : Store :=
  { sitePassword := "1234", adminPassword := "admin123", notes := [] }

/-- The placeholder title used when a title is absent or empty. -/
def placeholderTitle : String := "Без названия"

/-- Normalization of one note entry (`src/app.py` lines 43-50): the body of
the `safe_notes.append` call. `gid i` models the `secrets.token_hex(6)`
draw and `gnow i` the `datetime.now().isoformat()` draw for the entry at
position `i` of the incoming notes list. -/
def normNote (gid gnow : Nat → String) (i : Nat) (kvs : List (String × JValue)) : Note :=
  let vid := (jget kvs "id").getD .null
  let vtitle := (jget kvs "title").getD .null
  let vcontent := (jget kvs "content").getD .null
  let vupd := (jget kvs "updatedAt").getD .null
  { id := if pyTruthy vid then pyStr vid else gid i
    title := if pyTruthy vtitle then pyStr vtitle else placeholderTitle
    content := if pyTruthy vcontent then pyStr vcontent else ""
    updatedAt := if pyTruthy vupd then pyStr vupd else gnow i }

/-- Result of the `isinstance(note, dict)` test: the field list when the
value is a dict, `none` otherwise. -/
def JValue.objFields? : JValue → Option (List (String × JValue))
  | .obj kvs => some kvs
  | _ => none

/-- The `for note in notes` loop of `normalize_store`: non-dict entries are
discarded, dict entries are normalized. The counter `i` indexes generator
draws by position in the incoming list. -/
def normNotes (gid gnow : Nat → String) : Nat → List JValue → List Note
  | _, [] => []
  | i, x :: rest =>
      match x.objFields? with
      | some kvs => normNote gid gnow i kvs :: normNotes gid gnow (i + 1) rest
      | none => normNotes gid gnow (i + 1) rest

/-- `normalize_store` (`src/app.py` lines 27-53). -/
def normalize_store (gid gnow : Nat → String) (store : JValue) : Store :=
  match store with
  | .obj kvs =>
      { sitePassword := pyStr ((jget kvs "sitePassword").getD (.str default_store.sitePassword))
        adminPassword := pyStr ((jget kvs "adminPassword").getD (.str default_store.adminPassword))
        notes :=
          normNotes gid gnow 0
            (match (jget kvs "notes").getD (.arr []) with
              | .arr xs => xs
              | _ => []) }
  | _ => default_store

/-- JSON shape of a normalized note, as serialized by `json.dumps` and
re-read by `json.loads` (field insertion order as in the source). -/
def noteToJson (n : Note) : JValue :=
  .obj [("id", .str n.id), ("title", .str n.title),
        ("content", .str n.content), ("updatedAt", .str n.updatedAt)]

/-- JSON shape of a normalized store document. -/
def storeToJson (d : Store) : JValue :=
  .obj [("sitePassword", .str d.sitePassword),
        ("adminPassword", .str d.adminPassword),
        ("notes", .arr (d.notes.map noteToJson))]

/-- State of `store.json` on disk: absent, present but unparseable, or
present with parsed content `j`. -/
inductive FileState where
  | absent
  | corrupt
  | content (j : JValue)

/-- Process-wide persistent state: the disk file plus the `memory_store`
global. -/
structure StoreState where
  file : FileState
  memory : Option Store

/-- Whether the disk file is absent. -/
def FileState.isAbsent : FileState → Bool
  | .absent => true
  | _ => false

/-- `ensure_store` (`src/app.py` lines 56-62): create the file with the
default document when it does not exist; `OSError` (modelled by
`diskOk = false`) is swallowed. -/
def ensure_store (diskOk : Bool) (st : StoreState) : StoreState :=
  if diskOk && st.file.isAbsent then
    { st with file := .content (storeToJson default_store) }
  else st

/-- `read_store` (`src/app.py` lines 65-80): read and normalize the file;
on absence, parse failure or `OSError`, fall back to `memory_store`
(initialized to the default document when still `None`). -/
def read_store (gid gnow : Nat → String) (diskOk : Bool) (st : StoreState) :
    Store × StoreState :=
  match diskOk, (ensure_store diskOk st).file with
  | true, .content j =>
      (normalize_store gid gnow j,
       { ensure_store diskOk st with memory := some (normalize_store gid gnow j) })
  | _, _ =>
      (normalize_store gid gnow
         (storeToJson ((ensure_store diskOk st).memory.getD default_store)),
       { ensure_store diskOk st with
           memory := some ((ensure_store diskOk st).memory.getD default_store) })

/-- `write_store` (`src/app.py` lines 83-92): normalize, cache in
`memory_store`, and write the file (an `OSError` leaves the file as it
was). -/
def write_store (gid gnow : Nat → String) (diskOk : Bool) (data : JValue)
    (st : StoreState) : StoreState :=
  let n := normalize_store gid gnow data
  { file := if diskOk then .content (storeToJson n) else st.file
    memory := some n }

/-- Invariant of a normalized note: non-empty id, title and timestamp
(content may be empty). -/
def NoteWF (n : Note) : Prop := n.id ≠ "" ∧ n.title ≠ "" ∧ n.updatedAt ≠ ""

/-- Invariant preserved by normalization of the notes list. -/
def StoreWF (d : Store) : Prop := ∀ n ∈ d.notes, NoteWF n

instance : DecidablePred NoteWF := fun n => by unfold NoteWF; infer_instance

instance : DecidablePred StoreWF := fun d => by unfold StoreWF; infer_instance

/-- StoreDocument invariant as worded in spec §3: both passwords non-empty,
every note with non-empty id, non-empty title and non-empty timestamp. -/
def specStoreInvariant (d : Store) : Prop :=
  d.sitePassword ≠ "" ∧ d.adminPassword ≠ "" ∧ ∀ n ∈ d.notes, NoteWF n

instance : DecidablePred specStoreInvariant := fun d => by
  unfold specStoreInvariant; infer_instance

/-- Whether an input JSON document carries field `k` holding the literal
empty string (the only shape whose `str()` coercion is empty). -/
def fieldIsEmptyStr (j : JValue) (k : String) : Bool :=
  match j with
  | .obj kvs =>
      match jget kvs k with
      | some (.str s) => s == ""
      | _ => false
  | _ => false

/-! Session layer: the signed stateless cookie of `src/app.py` lines
118-156. Bytes are modelled as `Nat` values below 256. -/

/-- Per-client session flags (`src/app.py` lines 144-147). -/
structure Session where
  siteAuthed : Bool
  adminAuthed : Bool
deriving Repr, DecidableEq

/-- The all-false session returned on any recovery failure. -/
def freshSession : Session := { siteAuthed := false, adminAuthed := false }

/-- URL-safe base64 alphabet used by `base64.urlsafe_b64encode`. -/
def b64Chars : List Char :=
  "ABCDEFGHIJKLMNOPQRSTUVWXYZabcdefghijklmnopqrstuvwxyz0123456789-_".toList

/-- Character for a 6-bit group. -/
def b64Char (n : Nat) : Char := b64Chars.getD n 'A'

/-- Index of a character in the base64url alphabet, `none` for foreign
characters. -/
def b64CharVal (c : Char) : Option Nat := List.findIdx? (fun d => d == c) b64Chars

/-- Big-endian base64 encoding of a byte list, already stripped of `=`
padding as `b64_url_encode` does (`src/app.py` lines 124-125). -/
def b64EncodeGroups : List Nat → List Char
  | [] => []
  | [a] => [b64Char (a / 4 % 64), b64Char (a % 4 * 16)]
  | [a, b] => [b64Char (a / 4 % 64), b64Char (a % 4 * 16 + b / 16), b64Char (b % 16 * 4)]
  | a :: b :: c :: rest =>
      b64Char (a / 4 % 64) :: b64Char (a % 4 * 16 + b / 16) ::
        b64Char (b % 16 * 4 + c / 64) :: b64Char (c % 64) :: b64EncodeGroups rest

/-- `b64_url_encode` (`src/app.py` lines 124-125) on raw bytes. -/
def b64_url_encode (bytes : List Nat) : String := ⟨b64EncodeGroups bytes⟩

/-- Quad-wise base64 decoding. `=` is accepted only as terminal padding and
foreign characters fail the decode; CPython's lenient decoder instead
discards foreign characters and stops at embedded padding, a divergence
reachable only behind a valid HMAC signature, which the server issues for
well-formed payloads only. -/
def b64DecodeQuads : List Char → Option (List Nat)
  | [] => some []
  | c1 :: c2 :: c3 :: c4 :: rest =>
      match b64CharVal c1, b64CharVal c2 with
      | some a, some b =>
          if c3 = '=' then
            if c4 = '=' ∧ rest = [] then some [a * 4 + b / 16] else none
          else
            match b64CharVal c3 with
            | some c =>
                if c4 = '=' then
                  if rest = [] then some [a * 4 + b / 16, b % 16 * 16 + c / 4] else none
                else
                  match b64CharVal c4 with
                  | some d =>
                      match b64DecodeQuads rest with
                      | some bs =>
                          some ((a * 4 + b / 16) :: (b % 16 * 16 + c / 4) :: (c % 4 * 64 + d) :: bs)
                      | none => none
                  | none => none
            | none => none
      | _, _ => none
  | _ => none

/-- `b64_url_decode` (`src/app.py` lines 128-130): re-pad to a multiple of
four characters, then decode; failures model the `binascii.Error`
(a `ValueError`) raised by `base64.urlsafe_b64decode`. -/
def b64_url_decode (value : String) : Option (List Nat) :=
  b64DecodeQuads (value.data ++ List.replicate ((4 - value.data.length % 4) % 4) '=')

/-- UTF-8 encoding of one code point (`str.encode('utf-8')`). -/
def utf8EncodeChar (c : Char) : List Nat :=
  let n := c.toNat
  if n < 128 then [n]
  else if n < 2048 then [192 + n / 64, 128 + n % 64]
  else if n < 65536 then [224 + n / 4096, 128 + n / 64 % 64, 128 + n % 64]
  else [240 + n / 262144, 128 + n / 4096 % 64, 128 + n / 64 % 64, 128 + n % 64]

/-- UTF-8 encoding of a string. -/
def utf8Encode (s : String) : List Nat := (s.data.map utf8EncodeChar).flatten

/-- A unicode scalar value as a `Char`, rejecting surrogates and
out-of-range code points as Python's strict codec does. -/
def mkChar (n : Nat) : Option Char :=
  if Nat.isValidChar n then some (Char.ofNat n) else none

/-- Strict UTF-8 decoding (`bytes.decode('utf-8')`); `none` models the
`UnicodeDecodeError` (a `ValueError`) on invalid, overlong or surrogate
sequences. -/
def utf8Decode : List Nat → Option (List Char)
  | [] => some []
  | b :: rest =>
      if b < 128 then
        match mkChar b, utf8Decode rest with
        | some c, some cs => some (c :: cs)
        | _, _ => none
      else if b < 194 then none
      else if b < 224 then
        match rest with
        | b2 :: rest2 =>
            if 128 ≤ b2 ∧ b2 < 192 then
              match mkChar ((b - 192) * 64 + (b2 - 128)), utf8Decode rest2 with
              | some c, some cs => some (c :: cs)
              | _, _ => none
            else none
        | _ => none
      else if b < 240 then
        match rest with
        | b2 :: b3 :: rest2 =>
            if (128 ≤ b2 ∧ b2 < 192) ∧ 128 ≤ b3 ∧ b3 < 192 then
              let n := (b - 224) * 4096 + (b2 - 128) * 64 + (b3 - 128)
              if n < 2048 then none
              else
                match mkChar n, utf8Decode rest2 with
                | some c, some cs => some (c :: cs)
                | _, _ => none
            else none
        | _ => none
      else if b < 245 then
        match rest with
        | b2 :: b3 :: b4 :: rest2 =>
            if (128 ≤ b2 ∧ b2 < 192) ∧ (128 ≤ b3 ∧ b3 < 192) ∧ 128 ≤ b4 ∧ b4 < 192 then
              let n := (b - 240) * 262144 + (b2 - 128) * 4096 + (b3 - 128) * 64 + (b4 - 128)
              if n < 65536 ∨ 1114111 < n then none
              else
                match mkChar n, utf8Decode rest2 with
                | some c, some cs => some (c :: cs)
                | _, _ => none
            else none
        | _ => none
      else none

/-! Minimal JSON parser modelling `json.loads` on the fragment relevant to
session payloads: null, booleans, integers (floats are rejected; no claim
involves float payloads), strings with standard escapes and surrogate
pairs, arrays and objects. Duplicate object keys keep the last value, as
Python dicts do. -/

/-- JSON whitespace accepted between tokens. -/
def jsonWs (c : Char) : Bool := c == ' ' || c == '\t' || c == '\n' || c == '\r'

/-- Skip JSON whitespace. -/
def skipWs (l : List Char) : List Char := l.dropWhile jsonWs

/-- Value of a hexadecimal digit. -/
def hexVal (c : Char) : Option Nat :=
  let n := c.toNat
  if 48 ≤ n ∧ n ≤ 57 then some (n - 48)
  else if 97 ≤ n ∧ n ≤ 102 then some (n - 87)
  else if 65 ≤ n ∧ n ≤ 70 then some (n - 55)
  else none

/-- Numeric value of a digit run. -/
def digitsToNat (l : List Char) : Nat := l.foldl (fun a c => a * 10 + (c.toNat - 48)) 0

/-- Replace the value of `k` in place when present, else append: Python
dict assignment semantics, giving last-wins duplicate keys. -/
def insertKV : List (String × JValue) → String → JValue → List (String × JValue)
  | [], k, v => [(k, v)]
  | (k', v') :: rest, k, v =>
      if k' = k then (k', v) :: rest else (k', v') :: insertKV rest k v

/-- Parse the body of a JSON string after the opening quote, returning the
decoded characters and the input after the closing quote. Unescaped control
characters are rejected; `\u` escapes combine surrogate pairs and reject
lone surrogates (CPython tolerates lone surrogates — a divergence only
reachable behind a valid HMAC signature). -/
def parseStringBody : Nat → List Char → Option (List Char × List Char)
  | 0, _ => none
  | _ + 1, [] => none
  | fuel + 1, c :: rest =>
      if c = '"' then some ([], rest)
      else if c = '\\' then
        match rest with
        | [] => none
        | e :: rest2 =>
            let simpleEsc : Option Char :=
              if e = '"' then some '"'
              else if e = '\\' then some '\\'
              else if e = '/' then some '/'
              else if e = 'b' then some '\x08'
              else if e = 'f' then some '\x0c'
              else if e = 'n' then some '\n'
              else if e = 'r' then some '\r'
              else if e = 't' then some '\t'
              else none
            match simpleEsc with
            | some ce =>
                match parseStringBody fuel rest2 with
                | some (cs, r) => some (ce :: cs, r)
                | none => none
            | none =>
                if e = 'u' then
                  match rest2 with
                  | h1 :: h2 :: h3 :: h4 :: rest3 =>
                      match hexVal h1, hexVal h2, hexVal h3, hexVal h4 with
                      | some a, some b, some c', some d =>
                          let cp := a * 4096 + b * 256 + c' * 16 + d
                          if 55296 ≤ cp ∧ cp ≤ 56319 then
                            match rest3 with
                            | '\\' :: 'u' :: g1 :: g2 :: g3 :: g4 :: rest4 =>
                                match hexVal g1, hexVal g2, hexVal g3, hexVal g4 with
                                | some a2, some b2, some c2, some d2 =>
                                    let lo := a2 * 4096 + b2 * 256 + c2 * 16 + d2
                                    if 56320 ≤ lo ∧ lo ≤ 57343 then
                                      match
                                        mkChar (65536 + (cp - 55296) * 1024 + (lo - 56320)),
                                        parseStringBody fuel rest4 with
                                      | some ch, some (cs, r) => some (ch :: cs, r)
                                      | _, _ => none
                                    else none
                                | _, _, _, _ => none
                            | _ => none
                          else
                            match mkChar cp, parseStringBody fuel rest3 with
                            | some ch, some (cs, r) => some (ch :: cs, r)
                            | _, _ => none
                      | _, _, _, _ => none
                  | _ => none
                else none
      else if c.toNat < 32 then none
      else
        match parseStringBody fuel rest with
        | some (cs, r) => some (c :: cs, r)
        | none => none

/-- Parse an integer literal (leading `-`, no leading zeros, rejecting a
following `.`/`e`/`E` since floats are outside the model). -/
def parseIntToken (l : List Char) : Option (JValue × List Char) :=
  let core : List Char → Option (Int × List Char) := fun l' =>
    let ds := l'.takeWhile Char.isDigit
    let rest := l'.dropWhile Char.isDigit
    match ds with
    | [] => none
    | [d] =>
        match rest with
        | c :: _ => if c = '.' ∨ c = 'e' ∨ c = 'E' then none else some (Int.ofNat (d.toNat - 48), rest)
        | [] => some (Int.ofNat (d.toNat - 48), rest)
    | d :: _ :: _ =>
        if d = '0' then none
        else
          match rest with
          | c :: _ => if c = '.' ∨ c = 'e' ∨ c = 'E' then none else some (Int.ofNat (digitsToNat ds), rest)
          | [] => some (Int.ofNat (digitsToNat ds), rest)
  match l with
  | '-' :: l2 =>
      match core l2 with
      | some (n, rest) => some (.num (-n), rest)
      | none => none
  | _ =>
      match core l with
      | some (n, rest) => some (.num n, rest)
      | none => none

mutual

/-- Parse one JSON value, skipping leading whitespace. -/
def parseValue : Nat → List Char → Option (JValue × List Char)
  | 0, _ => none
  | fuel + 1, l =>
      match skipWs l with
      | 'n' :: 'u' :: 'l' :: 'l' :: rest => some (.null, rest)
      | 't' :: 'r' :: 'u' :: 'e' :: rest => some (.bool true, rest)
      | 'f' :: 'a' :: 'l' :: 's' :: 'e' :: rest => some (.bool false, rest)
      | '"' :: rest =>
          match parseStringBody (rest.length + 1) rest with
          | some (cs, r) => some (.str ⟨cs⟩, r)
          | none => none
      | '[' :: rest =>
          match parseArrayItems fuel rest with
          | some (xs, r) => some (.arr xs, r)
          | none => none
      | '\x7b' :: rest =>
          match parseObjItems fuel rest with
          | some (kvs, r) => some (.obj kvs, r)
          | none => none
      | rest => parseIntToken rest

/-- Parse array elements right after `[`. -/
def parseArrayItems : Nat → List Char → Option (List JValue × List Char)
  | 0, _ => none
  | fuel + 1, l =>
      match skipWs l with
      | ']' :: rest => some ([], rest)
      | _ =>
          match parseValue fuel l with
          | some (v, r1) =>
              match parseArrayTail fuel r1 with
              | some (vs, r2) => some (v :: vs, r2)
              | none => none
          | none => none

/-- Parse `, value` repetitions and the closing `]`. -/
def parseArrayTail : Nat → List Char → Option (List JValue × List Char)
  | 0, _ => none
  | fuel + 1, l =>
      match skipWs l with
      | ']' :: rest => some ([], rest)
      | ',' :: r1 =>
          match parseValue fuel r1 with
          | some (v, r2) =>
              match parseArrayTail fuel r2 with
              | some (vs, r3) => some (v :: vs, r3)
              | none => none
          | none => none
      | _ => none

/-- Parse object members right after the opening brace. -/
def parseObjItems : Nat → List Char → Option (List (String × JValue) × List Char)
  | 0, _ => none
  | fuel + 1, l =>
      match skipWs l with
      | '\x7d' :: rest => some ([], rest)
      | _ =>
          match parseMember fuel l with
          | some (k, v, r1) =>
              match parseObjTail fuel r1 with
              | some (kvs, r2) => some (insertKV kvs k v, r2)
              | none => none
          | none => none

/-- Parse `, member` repetitions and the closing brace, assembling the dict
back-to-front so that later duplicate keys overwrite earlier ones. -/
def parseObjTail : Nat → List Char → Option (List (String × JValue) × List Char)
  | 0, _ => none
  | fuel + 1, l =>
      match skipWs l with
      | '\x7d' :: rest => some ([], rest)
      | ',' :: r1 =>
          match parseMember fuel r1 with
          | some (k, v, r2) =>
              match parseObjTail fuel r2 with
              | some (kvs, r3) => some (insertKV kvs k v, r3)
              | none => none
          | none => none
      | _ => none

/-- Parse one `"key": value` member. -/
def parseMember : Nat → List Char → Option (String × JValue × List Char)
  | 0, _ => none
  | fuel + 1, l =>
      match skipWs l with
      | '"' :: rest =>
          match parseStringBody (rest.length + 1) rest with
          | some (cs, r1) =>
              match skipWs r1 with
              | ':' :: r2 =>
                  match parseValue fuel r2 with
                  | some (v, r3) => some (⟨cs⟩, v, r3)
                  | none => none
              | _ => none
          | none => none
      | _ => none

end

/-- The dict assembled by `insertKV`-folding in `parseObjItems` is built
tail-first; re-fold front-to-back to honour insertion order. This wrapper
is the entry point modelling `json.loads`. -/
def jsonParse (s : String) : Option JValue :=
  match parseValue (2 * s.data.length + 4) s.data with
  | some (v, rest) => if skipWs rest = [] then some v else none
  | none => none

/-- JSON serialization of a `True`/`False` flag. -/
def pyBoolJson : Bool → String
  | true => "true"
  | false => "false"

/-- `json.dumps(session_data, separators=(',', ':'))` for a session dict,
whose insertion order is always `siteAuthed` then `adminAuthed`
(`src/app.py` lines 144-147 construct it that way). -/
def sessToJsonString (s : Session) : String :=
  "\x7b\"siteAuthed\":" ++ pyBoolJson s.siteAuthed ++
    ",\"adminAuthed\":" ++ pyBoolJson s.adminAuthed ++ "\x7d"

/-- The base64url payload of a session cookie. -/
def sessPayload (s : Session) : String := b64_url_encode (utf8Encode (sessToJsonString s))

/-- The value of the `sid` cookie: `payload.signature`, where `mac`
abstracts `sign_payload` = HMAC-SHA256 hexdigest under the server secret
(`src/app.py` lines 133-134). -/
def makeSidValue (mac : String → String) (s : Session) : String :=
  sessPayload s ++ "." ++ mac (sessPayload s)

/-- `make_session_cookie` (`src/app.py` lines 153-156): the full
`Set-Cookie` value wrapping the sid value. -/
def make_session_cookie (mac : String → String) (s : Session) : String :=
  "sid=" ++ makeSidValue mac s ++ "; HttpOnly; Path=/; SameSite=Lax"

/-- Result of `get_session`: a recovered (or fresh) session, or an
uncaught exception propagating to the 500 handler. -/
inductive SessResult where
  | ok (s : Session)
  | raise
deriving Repr, DecidableEq

/-- Outcome of the `try` block of `get_session`. -/
inductive DecodeOutcome where
  | val (s : Session)
  | soft
  | hard
deriving Repr, DecidableEq

/-- The `try` body of `get_session` (`src/app.py` lines 142-149):
base64-decode, UTF-8-decode and JSON-parse the payload, then read the two
flags with Python truthiness. `soft` models the caught
`json.JSONDecodeError`/`ValueError` family (bad base64, bad UTF-8, bad
JSON); `hard` models the uncaught `AttributeError` raised by
`data.get` when the payload is valid JSON but not an object. -/
def decodeSessionPayload (payload : String) : DecodeOutcome :=
  match b64_url_decode payload with
  | none => .soft
  | some bytes =>
      match utf8Decode bytes with
      | none => .soft
      | some cs =>
          match jsonParse ⟨cs⟩ with
          | none => .soft
          | some (.obj kvs) =>
              .val { siteAuthed := pyTruthy ((jget kvs "siteAuthed").getD (.bool false))
                     adminAuthed := pyTruthy ((jget kvs "adminAuthed").getD (.bool false)) }
          | some _ => .hard

/-- `get_session` (`src/app.py` lines 137-150), taking the value of the
`sid` cookie (`none` when the cookie is missing). The `split('.', 1)` is
modelled by take/drop at the first dot, and `hmac.compare_digest` by
equality. -/
def get_session (mac : String → String) (sid : Option String) : SessResult :=
  let raw := sid.getD ""
  if raw.data ≠ [] ∧ '.' ∈ raw.data then
    let payload : String := ⟨raw.data.takeWhile (fun c => c != '.')⟩
    let signature : String := ⟨(raw.data.dropWhile (fun c => c != '.')).drop 1⟩
    if mac payload = signature then
      match decodeSessionPayload payload with
      | .val s => .ok s
      | .soft => .ok freshSession
      | .hard => .raise
    else .ok freshSession
  else .ok freshSession

/-! HTTP layer: request dispatch and handlers of the `app` function
(`src/app.py` lines 206-454). HTML bodies are abstracted to a page kind
carrying exactly the store data the page renders; a `redirect` response
has the empty body `b''`. -/

/-- Python `str.strip()` whitespace test (ASCII fragment; the handled
form fields never carry the rarer unicode spaces Python also strips). -/
def pySpace (c : Char) : Bool :=
  c == ' ' || c == '\t' || c == '\n' || c == '\r' || c == '\x0b' || c == '\x0c'

/-- Python `str.strip()`. -/
def pyStrip (s : String) : String :=
  ⟨List.reverse (List.dropWhile pySpace (List.reverse (List.dropWhile pySpace s.data)))⟩

/-- The `form.get('title', '').strip() or 'Без названия'` idiom. -/
def stripOrDefault (t : String) : String :=
  if pyStrip t = "" then placeholderTitle else pyStrip t

/-- `form.get(k)`: `None` when the field is absent. -/
def formGetOpt (form : List (String × String)) (k : String) : Option String :=
  List.lookup k form

/-- `form.get(k, '')`. -/
def formGet (form : List (String × String)) (k : String) : String :=
  (List.lookup k form).getD ""

/-- Lowercase hex rendering of one byte. -/
def byteHexChars (b : Nat) : List Char := [Nat.digitChar (b / 16 % 16), Nat.digitChar (b % 16)]

/-- `secrets.token_hex` on the drawn random bytes: two lowercase hex
characters per byte. -/
def bytesToHex (bs : List Nat) : String := ⟨(bs.map byteHexChars).flatten⟩

/-- Nondeterminism of one request: generator draws for `normalize_store`
(`gid`, `gnow`), the random bytes behind the `secrets.token_hex(6)` call
of the create handler (`tokBytes`), and the `datetime.now().isoformat()`
value used by the create/update handlers (`now`). -/
structure Gens where
  gid : Nat → String
  gnow : Nat → String
  tokBytes : List Nat
  now : String

/-- What a page body renders, keeping exactly the store data shown. -/
inductive PageKind where
  | loginPage
  | notesPage (notes : List Note)
  | adminLoginPage
  | adminPage (notes : List Note)
deriving Repr, DecidableEq

/-- Abstracted WSGI response. A `redirect` is a `302 Found` with empty
body `b''` and an optional re-issued session cookie; `html` is a rendered
page carrying the session cookie attached via `cookie_header`. -/
inductive Resp where
  | redirect (loc : String) (cookie : Option Session)
  | html (pg : PageKind) (cookie : Session)
  | staticCss
  | notFound
deriving Repr, DecidableEq

/-- `require_site` (`src/app.py` lines 185-188). -/
def require_site (s : Session) : Option Resp :=
  if s.siteAuthed then none else some (.redirect "/" (some s))

/-- `require_admin` (`src/app.py` lines 191-196). -/
def require_admin (s : Session) : Option Resp :=
  if s.siteAuthed then
    if s.adminAuthed then none else some (.redirect "/admin/login" (some s))
  else some (.redirect "/" (some s))

/-- The routes the dispatch cascade of `app` distinguishes. -/
inductive Route where
  | staticCss
  | home
  | login
  | logout
  | notesList
  | notesNewGet
  | notesNewPost
  | noteSave (nid : String)
  | adminLoginGet
  | adminLoginPost
  | adminLogout
  | adminPanel
  | adminDelete (nid : String)
  | changeSitePw
  | changeAdminPw
  | nomatch
deriving Repr, DecidableEq

/-- Split a character list at every occurrence of `sep`, keeping empty
segments, as Python `str.split(sep)` does. -/
def splitChar (sep : Char) : List Char → List (List Char)
  | [] => [[]]
  | c :: rest =>
      if c = sep then [] :: splitChar sep rest
      else
        match splitChar sep rest with
        | h :: t => (c :: h) :: t
        | [] => [[c]]

/-- Python `str.split(sep)` for a one-character separator. -/
def pySplit (sep : Char) (s : String) : List String :=
  (splitChar sep s.data).map (fun l => (⟨l⟩ : String))

/-- Python `str.startswith`. -/
def strStartsWith (s pre : String) : Bool := pre.data.isPrefixOf s.data

/-- Python `str.endswith`. -/
def strEndsWith (s suf : String) : Bool := suf.data.reverse.isPrefixOf s.data.reverse

/-- The dispatch cascade of `app` (`src/app.py` lines 215-447), in source
order, including the extraction of path parameters: `path.split('/')[2]`
for the save route and `path.split('/')[-1]` for the delete route (a path
starting with `/notes/` always splits into at least three parts, so the
Python indexing never raises there). -/
def routeOf (method path : String) : Route :=
  if path = "/static/style.css" ∧ method = "GET" then .staticCss
  else if path = "/" ∧ method = "GET" then .home
  else if path = "/login" ∧ method = "POST" then .login
  else if path = "/logout" ∧ method = "POST" then .logout
  else if path = "/notes" ∧ method = "GET" then .notesList
  else if path = "/notes/new" ∧ method = "GET" then .notesNewGet
  else if path = "/notes/new" ∧ method = "POST" then .notesNewPost
  else if strStartsWith path "/notes/" ∧ strEndsWith path "/save" ∧ method = "POST" then
    .noteSave ((pySplit '/' path).getD 2 "")
  else if path = "/admin/login" ∧ method = "GET" then .adminLoginGet
  else if path = "/admin/login" ∧ method = "POST" then .adminLoginPost
  else if path = "/admin/logout" ∧ method = "POST" then .adminLogout
  else if path = "/admin" ∧ method = "GET" then .adminPanel
  else if strStartsWith path "/admin/delete/" ∧ method = "POST" then
    .adminDelete ((pySplit '/' path).getLastD "")
  else if path = "/admin/change-site-password" ∧ method = "POST" then .changeSitePw
  else if path = "/admin/change-admin-password" ∧ method = "POST" then .changeAdminPw
  else .nomatch

/-- The in-place overwrite loop of the save handler (`src/app.py` lines
319-324): only the first note with matching id is rewritten, then the
loop breaks. -/
def updateFirstNote (nid title content ts : String) : List Note → List Note
  | [] => []
  | n :: rest =>
      if n.id = nid then
        { n with title := title, content := content, updatedAt := ts } :: rest
      else n :: updateFirstNote nid title content ts rest

/-- An incoming request after WSGI plumbing: uppercased method, path, and
the URL-decoded form fields (`read_form` returns one value per key). The
session is resolved separately by `get_session`. -/
structure Request where
  method : String
  path : String
  form : List (String × String)

/-- The per-route handler bodies of `app` (`src/app.py` lines 215-447),
after the route has been determined. -/
def handle (g : Gens) (diskOk : Bool) (r : Route) (form : List (String × String))
    (s : Session) (st : StoreState) : Resp × StoreState :=
  match r with
  | .staticCss => (.staticCss, st)
  | .home =>
      if s.siteAuthed then (.redirect "/notes" (some s), st)
      else (.html .loginPage s, st)
  | .login =>
      let rd := read_store g.gid g.gnow diskOk st
      if formGetOpt form "password" = some rd.1.sitePassword then
        (.redirect "/notes" (some { s with siteAuthed := true }), rd.2)
      else (.redirect "/?error=1" (some s), rd.2)
  | .logout => (.redirect "/" (some { siteAuthed := false, adminAuthed := false }), st)
  | .notesList =>
      match require_site s with
      | some b => (b, st)
      | none =>
          let rd := read_store g.gid g.gnow diskOk st
          (.html (.notesPage rd.1.notes) s, rd.2)
  | .notesNewGet =>
      match require_site s with
      | some b => (b, st)
      | none => (.redirect "/notes" (some s), st)
  | .notesNewPost =>
      match require_site s with
      | some b => (b, st)
      | none =>
          let rd := read_store g.gid g.gnow diskOk st
          let newNote : Note :=
            { id := bytesToHex g.tokBytes
              title := stripOrDefault (formGet form "title")
              content := ""
              updatedAt := g.now }
          let notes2 := rd.1.notes ++ [newNote]
          (.redirect "/notes" (some s),
           write_store g.gid g.gnow diskOk (storeToJson { rd.1 with notes := notes2 }) rd.2)
  | .noteSave nid =>
      match require_site s with
      | some b => (b, st)
      | none =>
          let rd := read_store g.gid g.gnow diskOk st
          let notes2 := updateFirstNote nid (stripOrDefault (formGet form "title"))
            (formGet form "content") g.now rd.1.notes
          (.redirect "/notes" (some s),
           write_store g.gid g.gnow diskOk (storeToJson { rd.1 with notes := notes2 }) rd.2)
  | .adminLoginGet =>
      match require_site s with
      | some b => (b, st)
      | none =>
          if s.adminAuthed then (.redirect "/admin" (some s), st)
          else (.html .adminLoginPage s, st)
  | .adminLoginPost =>
      match require_site s with
      | some b => (b, st)
      | none =>
          let rd := read_store g.gid g.gnow diskOk st
          if formGetOpt form "password" = some rd.1.adminPassword then
            (.redirect "/admin" (some { s with adminAuthed := true }), rd.2)
          else (.redirect "/admin/login?error=1" (some s), rd.2)
  | .adminLogout => (.redirect "/admin/login" (some { s with adminAuthed := false }), st)
  | .adminPanel =>
      match require_admin s with
      | some b => (b, st)
      | none =>
          let rd := read_store g.gid g.gnow diskOk st
          (.html (.adminPage rd.1.notes) s, rd.2)
  | .adminDelete nid =>
      match require_admin s with
      | some b => (b, st)
      | none =>
          let rd := read_store g.gid g.gnow diskOk st
          let notes2 := rd.1.notes.filter (fun n => n.id != nid)
          (.redirect "/admin" (some s),
           write_store g.gid g.gnow diskOk (storeToJson { rd.1 with notes := notes2 }) rd.2)
  | .changeSitePw =>
      match require_admin s with
      | some b => (b, st)
      | none =>
          if pyStrip (formGet form "newPassword") = "" then (.redirect "/admin" (some s), st)
          else
            let rd := read_store g.gid g.gnow diskOk st
            let v := pyStrip (formGet form "newPassword")
            (.redirect "/admin" (some s),
             write_store g.gid g.gnow diskOk (storeToJson { rd.1 with sitePassword := v }) rd.2)
  | .changeAdminPw =>
      match require_admin s with
      | some b => (b, st)
      | none =>
          if pyStrip (formGet form "newPassword") = "" then (.redirect "/admin" (some s), st)
          else
            let rd := read_store g.gid g.gnow diskOk st
            let v := pyStrip (formGet form "newPassword")
            (.redirect "/admin" (some s),
             write_store g.gid g.gnow diskOk (storeToJson { rd.1 with adminPassword := v }) rd.2)
  | .nomatch => (.notFound, st)

/-- `app` on one request with an already-resolved session: dispatch, then
handle. -/
def app (g : Gens) (diskOk : Bool) (req : Request) (s : Session) (st : StoreState) :
    Resp × StoreState :=
  handle g diskOk (routeOf req.method req.path) req.form s st

/-- Routes the HTTP surface table of spec §6 marks as requiring `site` or
`admin` auth (this is the spec-side quantification domain of C4; `GET
/notes/new` is gated in the code but absent from the table, so it is not
included). -/
def tableRequiresAuth : Route → Bool
  | .logout => true
  | .notesList => true
  | .notesNewPost => true
  | .noteSave _ => true
  | .adminLoginGet => true
  | .adminLoginPost => true
  | .adminLogout => true
  | .adminPanel => true
  | .adminDelete _ => true
  | .changeSitePw => true
  | .changeAdminPw => true
  | _ => false

/-- Whether a response is a redirect to one of the two login pages (`/`
is the site login form, `/admin/login` the admin login form); such a
response has the empty body `b''`, hence carries no note or admin data. -/
def isLoginRedirect : Resp → Bool
  | .redirect loc _ => loc == "/" || loc == "/admin/login"
  | _ => false

/-- The lowercase hexadecimal alphabet produced by `secrets.token_hex`. -/
def hexDigits : List Char := "0123456789abcdef".toList

/-- Concrete generator bundle used to instantiate witnesses. -/
def gensW : Gens :=
  { gid := fun _ => "aabbccddeeff"
    gnow := fun _ => "2026-01-01T00:00:00"
    tokBytes := [1, 2, 3, 4, 5, 6]
    now := "2026-02-03T04:05:06" }

/-! Basic string facts used throughout. -/

theorem string_data_append (a b : String) : (a ++ b).data = a.data ++ b.data := rfl

theorem string_ne_empty_iff (s : String) : s ≠ "" ↔ s.data ≠ [] := by
  constructor
  · intro h hd
    exact h (by cases s with
      | mk d => cases hd; rfl)
  · intro h he
    exact h (by cases he; rfl)

theorem append_left_cons_ne_empty (c : Char) (a b : String) (ha : a.data = [c]) :
    a ++ b ≠ "" := by
  rw [string_ne_empty_iff, string_data_append, ha]
  simp

theorem natDigitsAux_ne_nil (n : Nat) (acc : List Char) (h : acc ≠ []) :
    natDigitsAux n acc ≠ [] := by
  induction n using Nat.strong_induction_on generalizing acc with
  | _ n ih =>
    match n with
    | 0 => simpa [natDigitsAux] using h
    | m + 1 =>
      rw [natDigitsAux]
      exact ih ((m + 1) / 10) (Nat.div_lt_self (Nat.succ_pos m) (by omega)) _ (by simp)

theorem natStr_ne_empty (n : Nat) : natStr n ≠ "" := by
  unfold natStr
  split
  · decide
  · rename_i h
    rw [string_ne_empty_iff]
    obtain ⟨m, rfl⟩ : ∃ m, n = m + 1 := ⟨n - 1, by omega⟩
    have hstep : natDigitsAux (m + 1) [] =
        natDigitsAux ((m + 1) / 10) (Nat.digitChar ((m + 1) % 10) :: []) := by
      rw [natDigitsAux.eq_def]
    rw [hstep]
    exact natDigitsAux_ne_nil _ _ (by simp)

theorem intStr_ne_empty (n : Int) : intStr n ≠ "" := by
  cases n with
  | ofNat m => exact natStr_ne_empty m
  | negSucc m =>
    unfold intStr
    rw [string_ne_empty_iff, string_data_append]
    simp [show ("-" : String).data = ['-'] from rfl]

/-- Coercing a truthy value to a string gives a non-empty string: the only
JSON value whose `str()` is empty is the empty string itself. -/
theorem pyStr_ne_empty_of_truthy (v : JValue) (h : pyTruthy v = true) : pyStr v ≠ "" := by
  cases v with
  | null => simp [pyTruthy] at h
  | bool b =>
    cases b
    · simp [pyTruthy] at h
    · decide
  | num n =>
    have := intStr_ne_empty n
    simpa [pyStr, pyRepr] using this
  | str s =>
    simp only [pyTruthy, bne_iff_ne, ne_eq] at h
    simpa [pyStr] using h
  | arr xs =>
    show "[" ++ (pyReprList xs ++ "]") ≠ ""
    exact append_left_cons_ne_empty '[' _ _ rfl
  | obj kvs =>
    show "\x7b" ++ (pyReprObj kvs ++ "\x7d") ≠ ""
    exact append_left_cons_ne_empty '\x7b' _ _ rfl

/-- Stronger fact needed for the amended C1: every JSON value other than
the literal empty string coerces to a non-empty string. -/
theorem pyStr_ne_empty (v : JValue) (h : v ≠ .str "") : pyStr v ≠ "" := by
  cases v with
  | str s =>
    have : s ≠ "" := fun hs => h (by rw [hs])
    simpa [pyStr] using this
  | null => decide
  | bool b => cases b <;> decide
  | num n =>
    have := intStr_ne_empty n
    simpa [pyStr, pyRepr] using this
  | arr xs =>
    show "[" ++ (pyReprList xs ++ "]") ≠ ""
    exact append_left_cons_ne_empty '[' _ _ rfl
  | obj kvs =>
    show "\x7b" ++ (pyReprObj kvs ++ "\x7d") ≠ ""
    exact append_left_cons_ne_empty '\x7b' _ _ rfl

/-! Normalization establishes the note invariant and is a fixpoint on
well-formed documents. -/

theorem normNote_WF (gid gnow : Nat → String) (i : Nat) (kvs : List (String × JValue))
    (hgid : gid i ≠ "") (hgnow : gnow i ≠ "") : NoteWF (normNote gid gnow i kvs) := by
  unfold normNote NoteWF
  refine ⟨?_, ?_, ?_⟩ <;> dsimp only
  · split
    · exact pyStr_ne_empty_of_truthy _ (by assumption)
    · exact hgid
  · split
    · exact pyStr_ne_empty_of_truthy _ (by assumption)
    · decide
  · split
    · exact pyStr_ne_empty_of_truthy _ (by assumption)
    · exact hgnow

theorem normNotes_WF (gid gnow : Nat → String) (hgid : ∀ i, gid i ≠ "")
    (hgnow : ∀ i, gnow i ≠ "") (i : Nat) (l : List JValue) :
    ∀ n ∈ normNotes gid gnow i l, NoteWF n := by
  induction l generalizing i with
  | nil => intro n hn; simp [normNotes] at hn
  | cons x rest ih =>
    intro n hn
    rw [normNotes] at hn
    cases hx : x.objFields? with
    | some kvs =>
      rw [hx] at hn
      rcases List.mem_cons.mp hn with h | h
      · exact h ▸ normNote_WF gid gnow i kvs (hgid i) (hgnow i)
      · exact ih (i + 1) n h
    | none =>
      rw [hx] at hn
      exact ih (i + 1) n hn

theorem normalize_store_WF (gid gnow : Nat → String) (hgid : ∀ i, gid i ≠ "")
    (hgnow : ∀ i, gnow i ≠ "") (j : JValue) : StoreWF (normalize_store gid gnow j) := by
  cases j with
  | obj kvs => exact fun n hn => normNotes_WF gid gnow hgid hgnow 0 _ n hn
  | null => intro n hn; simp [normalize_store, default_store] at hn
  | bool b => intro n hn; simp [normalize_store, default_store] at hn
  | num m => intro n hn; simp [normalize_store, default_store] at hn
  | str s => intro n hn; simp [normalize_store, default_store] at hn
  | arr xs => intro n hn; simp [normalize_store, default_store] at hn

theorem normNote_fixpoint (gid gnow : Nat → String) (i : Nat) (n : Note) (h : NoteWF n) :
    normNote gid gnow i [("id", .str n.id), ("title", .str n.title),
      ("content", .str n.content), ("updatedAt", .str n.updatedAt)] = n := by
  obtain ⟨a, b, c, d⟩ := n
  obtain ⟨hid, htitle, hupd⟩ := h
  simp only [NoteWF] at hid htitle hupd
  by_cases hc : c = ""
  · simp [normNote, jget, List.lookup, pyTruthy, pyStr, hid, htitle, hupd, hc]
  · simp [normNote, jget, List.lookup, pyTruthy, pyStr, hid, htitle, hupd, hc]

theorem normNotes_fixpoint (gid gnow : Nat → String) (i : Nat) (l : List Note)
    (h : ∀ n ∈ l, NoteWF n) :
    normNotes gid gnow i (l.map noteToJson) = l := by
  induction l generalizing i with
  | nil => rfl
  | cons n rest ih =>
    simp only [List.map, noteToJson, normNotes, JValue.objFields?]
    rw [normNote_fixpoint gid gnow i n (h n (by simp)),
        ih (i + 1) (fun m hm => h m (by simp [hm]))]

theorem normalize_store_fixpoint (gid gnow : Nat → String) (d : Store) (h : StoreWF d) :
    normalize_store gid gnow (storeToJson d) = d := by
  obtain ⟨sp, ap, notes⟩ := d
  simp only [StoreWF] at h
  simp [storeToJson, normalize_store, jget, List.lookup, pyStr,
        normNotes_fixpoint gid gnow 0 notes h]

theorem default_store_WF : StoreWF default_store := by decide

/-- The document returned by `read_store` is always a normalization result,
hence satisfies the note invariant whenever the generators return non-empty
strings. -/
theorem read_store_WF (gid gnow : Nat → String) (hgid : ∀ i, gid i ≠ "")
    (hgnow : ∀ i, gnow i ≠ "") (diskOk : Bool) (st : StoreState) :
    StoreWF (read_store gid gnow diskOk st).1 := by
  unfold read_store
  split
  · exact normalize_store_WF gid gnow hgid hgnow _
  · exact normalize_store_WF gid gnow hgid hgnow _

/-- Password fields coerce to non-empty strings unless the stored field is
the literal empty string: missing fields get the non-empty defaults, any
other JSON value survives `str()` with at least one character. -/
theorem normalize_store_pw (gid gnow : Nat → String) (j : JValue)
    (h1 : fieldIsEmptyStr j "sitePassword" = false)
    (h2 : fieldIsEmptyStr j "adminPassword" = false) :
    (normalize_store gid gnow j).sitePassword ≠ "" ∧
      (normalize_store gid gnow j).adminPassword ≠ "" := by
  cases j with
  | obj kvs =>
    simp only [fieldIsEmptyStr] at h1 h2
    constructor
    · show pyStr ((jget kvs "sitePassword").getD (.str default_store.sitePassword)) ≠ ""
      cases hk : jget kvs "sitePassword" with
      | none => decide
      | some v =>
        rw [hk] at h1
        refine pyStr_ne_empty v ?_
        cases v with
        | str s =>
          simp only [beq_eq_false_iff_ne, ne_eq] at h1
          simpa using h1
        | null => simp
        | bool b => simp
        | num m => simp
        | arr xs => simp
        | obj o => simp
    · show pyStr ((jget kvs "adminPassword").getD (.str default_store.adminPassword)) ≠ ""
      cases hk : jget kvs "adminPassword" with
      | none => decide
      | some v =>
        rw [hk] at h2
        refine pyStr_ne_empty v ?_
        cases v with
        | str s =>
          simp only [beq_eq_false_iff_ne, ne_eq] at h2
          simpa using h2
        | null => simp
        | bool b => simp
        | num m => simp
        | arr xs => simp
        | obj o => simp
  | null => exact ⟨by simp [normalize_store, default_store], by simp [normalize_store, default_store]⟩
  | bool b => exact ⟨by simp [normalize_store, default_store], by simp [normalize_store, default_store]⟩
  | num m => exact ⟨by simp [normalize_store, default_store], by simp [normalize_store, default_store]⟩
  | str s => exact ⟨by simp [normalize_store, default_store], by simp [normalize_store, default_store]⟩
  | arr xs => exact ⟨by simp [normalize_store, default_store], by simp [normalize_store, default_store]⟩

/-! Facts about the cookie split used by `get_session`. -/

theorem string_eta (s : String) : (⟨s.data⟩ : String) = s := by
  cases s
  rfl

theorem takeWhile_until_dot (l r : List Char) (h : '.' ∉ l) :
    (l ++ '.' :: r).takeWhile (fun c => c != '.') = l := by
  induction l with
  | nil => simp [List.takeWhile]
  | cons a rest ih =>
    have ha : a ≠ '.' := fun hc => h (hc ▸ List.mem_cons_self a rest)
    have hb : (a != '.') = true := by simpa using ha
    simp only [List.cons_append, List.takeWhile, hb, List.append_eq]
    rw [ih (fun hm => h (List.mem_cons_of_mem a hm))]

theorem dropWhile_until_dot (l r : List Char) (h : '.' ∉ l) :
    (l ++ '.' :: r).dropWhile (fun c => c != '.') = '.' :: r := by
  induction l with
  | nil => simp [List.dropWhile]
  | cons a rest ih =>
    have ha : a ≠ '.' := fun hc => h (hc ▸ List.mem_cons_self a rest)
    have hb : (a != '.') = true := by simpa using ha
    simp only [List.cons_append, List.dropWhile, hb, List.append_eq]
    exact ih (fun hm => h (List.mem_cons_of_mem a hm))

/-- Behaviour of `get_session` on a cookie of shape `payload.signature`
with a dot-free payload: the signature comparison decides everything. -/
theorem get_session_split (mac : String → String) (p sig : String)
    (hp : '.' ∉ p.data) :
    get_session mac (some (p ++ "." ++ sig)) =
      (if mac p = sig then
        match decodeSessionPayload p with
        | .val s => .ok s
        | .soft => .ok freshSession
        | .hard => .raise
      else .ok freshSession) := by
  have hdata : (p ++ "." ++ sig).data = p.data ++ '.' :: sig.data := by
    rw [string_data_append, string_data_append]
    simp [show ("." : String).data = ['.'] from rfl]
  unfold get_session
  rw [if_pos ?hcond]
  case hcond =>
    constructor
    · rw [Option.getD_some, hdata]
      simp
    · rw [Option.getD_some, hdata]
      simp
  have htake : ((some (p ++ "." ++ sig)).getD "").data.takeWhile (fun c => c != '.') =
      p.data := by
    rw [Option.getD_some, hdata]
    exact takeWhile_until_dot _ _ hp
  have hdrop : (((some (p ++ "." ++ sig)).getD "").data.dropWhile
      (fun c => c != '.')).drop 1 = sig.data := by
    rw [Option.getD_some, hdata, dropWhile_until_dot _ _ hp]
    rfl
  rw [htake, hdrop, string_eta, string_eta]

/-! Claim C2 (session recovery failures yield the fresh session). -/

/-- Claim C2: every enumerated failure of session recovery — missing
cookie, empty or dot-free cookie value, a signature differing from the
recomputed MAC of the payload (for example one flipped character), or a
payload failing base64/UTF-8/JSON decoding — makes `get_session` return
the all-false fresh session, without raising (the result is `ok`, never
`raise`). -/
theorem claim2_session_failure_fresh (mac : String → String) (sid : Option String)
    (h : sid = none ∨ (sid.getD "").data = [] ∨ '.' ∉ (sid.getD "").data ∨
      (∃ p sig : String, '.' ∉ p.data ∧ sid = some (p ++ "." ++ sig) ∧ mac p ≠ sig) ∨
      ∃ p sig : String, '.' ∉ p.data ∧ sid = some (p ++ "." ++ sig) ∧
        decodeSessionPayload p = .soft) :
    get_session mac sid = .ok freshSession := by
  rcases h with rfl | h | h | ⟨p, sig, hp, rfl, hne⟩ | ⟨p, sig, hp, rfl, hdec⟩
  · rfl
  · unfold get_session
    rw [if_neg]
    intro hc
    exact hc.1 h
  · unfold get_session
    rw [if_neg]
    intro hc
    exact h hc.2
  · rw [get_session_split mac p sig hp, if_neg hne]
  · rw [get_session_split mac p sig hp]
    by_cases hm : mac p = sig
    · rw [if_pos hm, hdec]
    · rw [if_neg hm]

/-- Claim C2, witness: a cookie whose signature does not match the MAC of
its payload (here the MAC of every payload is `"00"` while the carried
signature is `"cd"`) yields the fresh session. -/
theorem claim2_session_failure_fresh_witness :
    get_session (fun _ => "00") (some "ab.cd") = .ok freshSession :=
  claim2_session_failure_fresh (fun _ => "00") (some "ab.cd")
    (Or.inr (Or.inr (Or.inr (Or.inl ⟨"ab", "cd", by decide, by decide, by decide⟩))))

/-! Claim C10 (cookie round-trip). -/

/-- Claim C10: for every session and signing function (abstracting
HMAC-SHA256 under the fixed server secret), the `sid` value produced by
`make_session_cookie` — serialization, base64url-encoding and signing —
is decoded by `get_session` back to exactly the same session: the
signature verifies, and base64/UTF-8/JSON decoding recovers the two
boolean flags. -/
theorem claim10_cookie_roundtrip (mac : String → String) (s : Session) :
    get_session mac (some (makeSidValue mac s)) = .ok s ∧
      make_session_cookie mac s =
        "sid=" ++ makeSidValue mac s ++ "; HttpOnly; Path=/; SameSite=Lax" := by
  refine ⟨?_, rfl⟩
  obtain ⟨site, admin⟩ := s
  have key : ∀ b1 b2 : Bool,
      decodeSessionPayload (sessPayload ⟨b1, b2⟩) = .val ⟨b1, b2⟩ →
      '.' ∉ (sessPayload ⟨b1, b2⟩).data →
      get_session mac (some (makeSidValue mac ⟨b1, b2⟩)) = .ok ⟨b1, b2⟩ := by
    intro b1 b2 hdec hp
    show get_session mac
      (some (sessPayload ⟨b1, b2⟩ ++ "." ++ mac (sessPayload ⟨b1, b2⟩))) = .ok ⟨b1, b2⟩
    rw [get_session_split mac _ _ hp, if_pos rfl, hdec]
  cases site <;> cases admin
  · exact key false false (by decide) (by decide)
  · exact key false true (by decide) (by decide)
  · exact key true false (by decide) (by decide)
  · exact key true true (by decide) (by decide)

/-! Claim C1 (corrected). -/

/-- Claim C1, counterexample: the claim asserts that `read_store` always
returns a document with non-empty password strings, but `normalize_store`
only restores the default when the field is missing — a persisted document
whose `sitePassword` field is the empty string is loaded with an empty
`sitePassword`, violating the spec §3 invariant. -/
theorem claim1_counterexample :
    ¬ specStoreInvariant
        ((read_store (fun _ => "aabbccddeeff") (fun _ => "2026-01-01T00:00:00") true
            { file := .content (.obj [("sitePassword", .str "")]), memory := none }).1) := by
  decide

/-- Claim C1, amended: for every persisted input value the loaded document
has string passwords and a notes sequence in which every note has a
non-empty string id, non-empty string title, string content and non-empty
updatedAt (given that the id/timestamp generators, modelling
`secrets.token_hex(6)` and `datetime.now().isoformat()`, return non-empty
strings); the password fields are moreover non-empty provided the persisted
field is not the literal empty string — defaults are restored only when a
field is missing, and `str()` of any other JSON value is non-empty, but an
empty-string password field is preserved as empty. -/
theorem claim1_amended_invariant (gid gnow : Nat → String)
    (hgid : ∀ i, gid i ≠ "") (hgnow : ∀ i, gnow i ≠ "") :
    (∀ diskOk st, StoreWF (read_store gid gnow diskOk st).1) ∧
      ∀ j mem, fieldIsEmptyStr j "sitePassword" = false →
        fieldIsEmptyStr j "adminPassword" = false →
        specStoreInvariant
          (read_store gid gnow true { file := .content j, memory := mem }).1 := by
  refine ⟨fun diskOk st => read_store_WF gid gnow hgid hgnow diskOk st, ?_⟩
  intro j mem h1 h2
  have hread : (read_store gid gnow true { file := .content j, memory := mem }).1 =
      normalize_store gid gnow j := by
    simp [read_store, ensure_store, FileState.isAbsent]
  rw [hread]
  obtain ⟨hp1, hp2⟩ := normalize_store_pw gid gnow j h1 h2
  exact ⟨hp1, hp2, normalize_store_WF gid gnow hgid hgnow j⟩

/-- Claim C1 amended, witness at a fully concrete malformed input: a
document with a numeric site password, a missing admin password, and a
notes list mixing a non-record entry with a record missing every field. -/
theorem claim1_amended_invariant_witness :
    StoreWF (read_store (fun _ => "aabbccddeeff") (fun _ => "2026-01-01T00:00:00") true
        { file := .corrupt, memory := none }).1 ∧
      specStoreInvariant
        (read_store (fun _ => "aabbccddeeff") (fun _ => "2026-01-01T00:00:00") true
          { file := .content (.obj [("sitePassword", .num 7),
              ("notes", .arr [.num 3, .obj []])]), memory := none }).1 := by
  have h := claim1_amended_invariant (fun _ => "aabbccddeeff")
    (fun _ => "2026-01-01T00:00:00") (by intro i; simp) (by intro i; simp)
  exact ⟨h.1 true { file := .corrupt, memory := none },
    h.2 (.obj [("sitePassword", .num 7), ("notes", .arr [.num 3, .obj []])]) none
      (by decide) (by decide)⟩

/-! Claim C3 (round-trip idempotence). -/

/-- Claim C3: `save(load())` is idempotent. Reading the store, writing the
result back, and reading again yields the identical document, for every
prior persistent state, whether or not disk writes succeed, and regardless
of the id/timestamp generators consulted by the later normalizations (no
fresh ids or timestamps are drawn: the second and third generator pairs are
arbitrary and independent of the first). -/
theorem claim3_save_load_idempotent (gid gnow gid2 gnow2 gid3 gnow3 : Nat → String)
    (diskOk : Bool) (st : StoreState)
    (hgid : ∀ i, gid i ≠ "") (hgnow : ∀ i, gnow i ≠ "") :
    (read_store gid3 gnow3 diskOk
        (write_store gid2 gnow2 diskOk
          (storeToJson (read_store gid gnow diskOk st).1)
          (read_store gid gnow diskOk st).2)).1 =
      (read_store gid gnow diskOk st).1 := by
  have hWF : StoreWF (read_store gid gnow diskOk st).1 :=
    read_store_WF gid gnow hgid hgnow diskOk st
  have hw2 := normalize_store_fixpoint gid2 gnow2 _ hWF
  have hw3 := normalize_store_fixpoint gid3 gnow3 _ hWF
  cases diskOk with
  | false =>
    show normalize_store gid3 gnow3 (storeToJson (normalize_store gid2 gnow2
        (storeToJson ((read_store gid gnow false st).1)))) =
      (read_store gid gnow false st).1
    rw [hw2, hw3]
  | true =>
    show normalize_store gid3 gnow3 (storeToJson (normalize_store gid2 gnow2
        (storeToJson ((read_store gid gnow true st).1)))) =
      (read_store gid gnow true st).1
    rw [hw2, hw3]

/-! Helper lemmas for the HTTP-layer claims. -/

/-- Reading an absent store with an empty memory cache yields the default
document (after `ensure_store` creates it, or via the in-memory fallback
when the disk is unavailable). -/
theorem read_store_fresh (gid gnow : Nat → String) (diskOk : Bool) :
    (read_store gid gnow diskOk { file := .absent, memory := none }).1 = default_store := by
  cases diskOk with
  | true =>
    show normalize_store gid gnow (storeToJson default_store) = default_store
    exact normalize_store_fixpoint _ _ _ default_store_WF
  | false =>
    show normalize_store gid gnow (storeToJson default_store) = default_store
    exact normalize_store_fixpoint _ _ _ default_store_WF

/-- A well-formed document written with `write_store` is returned intact by
the next `read_store`, whatever generators that read uses. -/
theorem read_after_write (gid gnow gid2 gnow2 : Nat → String) (diskOk : Bool)
    (d : Store) (st : StoreState) (h : StoreWF d) :
    (read_store gid2 gnow2 diskOk
        (write_store gid gnow diskOk (storeToJson d) st)).1 = d := by
  have hw : normalize_store gid gnow (storeToJson d) = d := normalize_store_fixpoint _ _ _ h
  cases diskOk with
  | true =>
    show normalize_store gid2 gnow2
        (storeToJson (normalize_store gid gnow (storeToJson d))) = d
    rw [hw]
    exact normalize_store_fixpoint _ _ _ h
  | false =>
    show normalize_store gid2 gnow2
        (storeToJson (normalize_store gid gnow (storeToJson d))) = d
    rw [hw]
    exact normalize_store_fixpoint _ _ _ h

theorem bytesToHex_length (bs : List Nat) : (bytesToHex bs).length = 2 * bs.length := by
  show ((bs.map byteHexChars).flatten).length = 2 * bs.length
  induction bs with
  | nil => rfl
  | cons b rest ih =>
    simp only [List.map, List.flatten, List.length_append, List.length_cons, ih, byteHexChars]
    simp [Nat.mul_add, Nat.add_comm]

theorem bytesToHex_hex (bs : List Nat) : ∀ c ∈ (bytesToHex bs).data, c ∈ hexDigits := by
  have hdigit : ∀ d : Nat, d < 16 → Nat.digitChar d ∈ hexDigits := by decide
  show ∀ c ∈ (bs.map byteHexChars).flatten, c ∈ hexDigits
  induction bs with
  | nil => intro c hc; simp at hc
  | cons b rest ih =>
    intro c hc
    simp only [List.map, List.flatten, List.mem_append] at hc
    rcases hc with hc | hc
    · simp only [byteHexChars, List.mem_cons, List.not_mem_nil, or_false] at hc
      rcases hc with rfl | rfl
      · exact hdigit _ (Nat.mod_lt _ (by omega))
      · exact hdigit _ (Nat.mod_lt _ (by omega))
    · exact ih c hc

theorem bytesToHex_ne_empty (bs : List Nat) (h : bs ≠ []) : bytesToHex bs ≠ "" := by
  intro hc
  have := congrArg String.length hc
  rw [bytesToHex_length] at this
  simp at this
  exact h this

theorem stripOrDefault_ne_empty (t : String) : stripOrDefault t ≠ "" := by
  unfold stripOrDefault
  split
  · decide
  · assumption

theorem updateFirstNote_WF (nid t c ts : String) (ht : t ≠ "") (hts : ts ≠ "")
    (l : List Note) (h : ∀ n ∈ l, NoteWF n) :
    ∀ n ∈ updateFirstNote nid t c ts l, NoteWF n := by
  induction l with
  | nil => intro n hn; simp [updateFirstNote] at hn
  | cons m rest ih =>
    intro n hn
    rw [updateFirstNote] at hn
    split at hn
    · rcases List.mem_cons.mp hn with rfl | hmem
      · exact ⟨(h m (by simp)).1, ht, hts⟩
      · exact h n (by simp [hmem])
    · rcases List.mem_cons.mp hn with rfl | hmem
      · exact h n (by simp)
      · exact ih (fun n' hn' => h n' (by simp [hn'])) n hmem

theorem updateFirstNote_noMatch (nid t c ts : String) (l : List Note)
    (h : ∀ n ∈ l, n.id ≠ nid) : updateFirstNote nid t c ts l = l := by
  induction l with
  | nil => rfl
  | cons m rest ih =>
    rw [updateFirstNote, if_neg (h m (by simp))]
    rw [ih (fun n hn => h n (by simp [hn]))]

/-- Claim C3, witness: concrete round-trip starting from an absent store
file. -/
theorem claim3_save_load_idempotent_witness :
    (read_store (fun _ => "ee") (fun _ => "tt") true
        (write_store (fun _ => "cc") (fun _ => "dd") true
          (storeToJson (read_store (fun _ => "aa") (fun _ => "bb") true
            { file := .absent, memory := none }).1)
          (read_store (fun _ => "aa") (fun _ => "bb") true
            { file := .absent, memory := none }).2)).1 =
      (read_store (fun _ => "aa") (fun _ => "bb") true
        { file := .absent, memory := none }).1 :=
  claim3_save_load_idempotent (fun _ => "aa") (fun _ => "bb") (fun _ => "cc")
    (fun _ => "dd") (fun _ => "ee") (fun _ => "tt") true
    { file := .absent, memory := none } (by intro i; simp) (by intro i; simp)

/-! Claim C4 (unauthenticated sessions are redirected to a login page). -/

/-- Claim C4: for every request whose route the spec §6 table marks as
requiring site or admin access — including `POST /logout` and
`POST /admin/logout` — a session with `siteAuthed = false` receives a
redirect to a login page (`/` or `/admin/login`); a redirect response has
the empty body `b''`, so no note or admin data is exposed. The two logout
routes are not behaviourally distinguishable from gated routes for such a
session: they also answer with a login-page redirect and expose nothing. -/
theorem claim4_unauthed_redirect (g : Gens) (diskOk : Bool) (req : Request)
    (s : Session) (st : StoreState)
    (hgate : tableRequiresAuth (routeOf req.method req.path) = true)
    (hs : s.siteAuthed = false) :
    isLoginRedirect (app g diskOk req s st).1 = true := by
  unfold app
  revert hgate
  cases routeOf req.method req.path <;> intro hgate <;>
    simp_all [tableRequiresAuth, handle, require_site, require_admin, isLoginRedirect]

/-- Claim C4, witness: `POST /logout` with the fresh (unauthenticated)
session answers with a login-page redirect. -/
theorem claim4_unauthed_redirect_witness :
    isLoginRedirect (app gensW true { method := "POST", path := "/logout", form := [] }
        freshSession { file := .absent, memory := none }).1 = true :=
  claim4_unauthed_redirect gensW true { method := "POST", path := "/logout", form := [] }
    freshSession { file := .absent, memory := none } (by decide) rfl

/-! Claim C5 (decision order of the admin gate). -/

/-- Claim C5: `require_admin` decides in order — a session without site
access is redirected to the site login page `/` (admin implies site); a
site-authed session without admin access is redirected to the admin login
page `/admin/login`; a session with both flags is allowed through
(`None`). -/
theorem claim5_admin_gate_order (s : Session) :
    (s.siteAuthed = false → require_admin s = some (.redirect "/" (some s))) ∧
      (s.siteAuthed = true → s.adminAuthed = false →
        require_admin s = some (.redirect "/admin/login" (some s))) ∧
      (s.siteAuthed = true → s.adminAuthed = true → require_admin s = none) := by
  obtain ⟨site, admin⟩ := s
  refine ⟨fun h1 => ?_, fun h1 h2 => ?_, fun h1 h2 => ?_⟩ <;>
    simp_all [require_admin]

/-- Claim C5, witness: the three decision outcomes at concrete sessions
(including the admin-implies-site case `siteAuthed = false,
adminAuthed = true`, which is still sent to the site login page). -/
theorem claim5_admin_gate_order_witness :
    require_admin { siteAuthed := false, adminAuthed := true } =
        some (.redirect "/" (some { siteAuthed := false, adminAuthed := true })) ∧
      require_admin { siteAuthed := true, adminAuthed := false } =
        some (.redirect "/admin/login" (some { siteAuthed := true, adminAuthed := false })) ∧
      require_admin { siteAuthed := true, adminAuthed := true } = none :=
  ⟨(claim5_admin_gate_order _).1 rfl,
   (claim5_admin_gate_order _).2.1 rfl rfl,
   (claim5_admin_gate_order _).2.2 rfl rfl⟩

/-! Claim C9 (site login on a fresh store). -/

/-- Claim C9: on a fresh store (absent file, empty memory cache — whose
loaded document is the default with site password `"1234"`), `POST /login`
with submitted password `"1234"` sets `siteAuthed` and redirects to
`/notes`; with any other submission (wrong value or missing field) it
redirects to `/?error=1` and re-issues the session unchanged — for the
fresh all-false session, both flags remain false. -/
theorem claim9_login (g : Gens) (diskOk : Bool) (s : Session)
    (form : List (String × String)) :
    (formGetOpt form "password" = some "1234" →
      (app g diskOk { method := "POST", path := "/login", form := form } s
          { file := .absent, memory := none }).1 =
        .redirect "/notes" (some { s with siteAuthed := true })) ∧
      (formGetOpt form "password" ≠ some "1234" →
        (app g diskOk { method := "POST", path := "/login", form := form } s
            { file := .absent, memory := none }).1 =
          .redirect "/?error=1" (some s)) := by
  have hr : routeOf "POST" "/login" = Route.login := by decide
  have hd := read_store_fresh g.gid g.gnow diskOk
  constructor
  · intro h
    unfold app
    rw [hr]
    simp [handle, hd, default_store, h]
  · intro h
    unfold app
    rw [hr]
    simp only [handle, hd, default_store]
    rw [if_neg (by simpa [default_store] using h)]

/-- Claim C9, witness: the default password succeeds, a wrong one fails,
both from the fresh session. -/
theorem claim9_login_witness :
    (app gensW true { method := "POST", path := "/login", form := [("password", "1234")] }
        freshSession { file := .absent, memory := none }).1 =
      .redirect "/notes" (some { siteAuthed := true, adminAuthed := false }) ∧
      (app gensW true { method := "POST", path := "/login", form := [("password", "wrong")] }
          freshSession { file := .absent, memory := none }).1 =
        .redirect "/?error=1" (some freshSession) :=
  ⟨(claim9_login gensW true freshSession [("password", "1234")]).1 (by decide),
   (claim9_login gensW true freshSession [("password", "wrong")]).2 (by decide)⟩

/-! Claim C6 (note creation). -/

/-- Claim C6: for a site-authed session, `POST /notes/new` redirects to the
notes list and appends exactly one note at the end of the notes sequence —
both passwords and all pre-existing notes unchanged — whose id is the hex
image of the six fresh random bytes behind `secrets.token_hex(6)` (twelve
lowercase hex characters), whose title is the stripped input or the
placeholder when the stripped input is empty (`stripOrDefault`), whose
content is empty, and whose `updatedAt` is the current timestamp. The
later `read_store` observes the change with arbitrary generators. -/
theorem claim6_create_note (g : Gens) (g2id g2now : Nat → String) (diskOk : Bool)
    (form : List (String × String)) (s : Session) (st : StoreState)
    (hs : s.siteAuthed = true)
    (hgid : ∀ i, g.gid i ≠ "") (hgnow : ∀ i, g.gnow i ≠ "")
    (htok : g.tokBytes.length = 6) (hnow : g.now ≠ "") :
    (app g diskOk { method := "POST", path := "/notes/new", form := form } s st).1 =
        .redirect "/notes" (some s) ∧
      (read_store g2id g2now diskOk
          (app g diskOk { method := "POST", path := "/notes/new", form := form } s st).2).1 =
        { sitePassword := (read_store g.gid g.gnow diskOk st).1.sitePassword
          adminPassword := (read_store g.gid g.gnow diskOk st).1.adminPassword
          notes := (read_store g.gid g.gnow diskOk st).1.notes ++
            [{ id := bytesToHex g.tokBytes
               title := stripOrDefault (formGet form "title")
               content := ""
               updatedAt := g.now }] } ∧
      (bytesToHex g.tokBytes).length = 12 ∧
      ∀ c ∈ (bytesToHex g.tokBytes).data, c ∈ hexDigits := by
  have hr : routeOf "POST" "/notes/new" = Route.notesNewPost := by decide
  have hgate : require_site s = none := by simp [require_site, hs]
  have hd0 : StoreWF (read_store g.gid g.gnow diskOk st).1 :=
    read_store_WF g.gid g.gnow hgid hgnow diskOk st
  have hnew : NoteWF
      { id := bytesToHex g.tokBytes
        title := stripOrDefault (formGet form "title")
        content := ""
        updatedAt := g.now } :=
    ⟨bytesToHex_ne_empty _ (by intro hc; rw [hc] at htok; simp at htok),
     stripOrDefault_ne_empty _, hnow⟩
  have hWF2 : StoreWF
      { sitePassword := (read_store g.gid g.gnow diskOk st).1.sitePassword
        adminPassword := (read_store g.gid g.gnow diskOk st).1.adminPassword
        notes := (read_store g.gid g.gnow diskOk st).1.notes ++
          [{ id := bytesToHex g.tokBytes
             title := stripOrDefault (formGet form "title")
             content := ""
             updatedAt := g.now }] } := by
    intro n hn
    rcases List.mem_append.mp hn with hmem | hmem
    · exact hd0 n hmem
    · rcases List.mem_singleton.mp hmem with rfl
      exact hnew
  refine ⟨?_, ?_, ?_, bytesToHex_hex _⟩
  · unfold app
    rw [hr]
    simp [handle, hgate]
  · unfold app
    rw [hr]
    simp only [handle, hgate]
    exact read_after_write g.gid g.gnow g2id g2now diskOk _ _ hWF2
  · rw [bytesToHex_length, htok]

/-- Claim C6, witness: creating a note with the whitespace-only title
`"  "` on a fresh store stores the placeholder-titled note with the
12-hex-character id of the drawn bytes. -/
theorem claim6_create_note_witness :
    (app gensW true { method := "POST", path := "/notes/new", form := [("title", "  ")] }
        { siteAuthed := true, adminAuthed := false } { file := .absent, memory := none }).1 =
        .redirect "/notes" (some { siteAuthed := true, adminAuthed := false }) ∧
      (read_store (fun _ => "zz") (fun _ => "ww") true
          (app gensW true { method := "POST", path := "/notes/new", form := [("title", "  ")] }
            { siteAuthed := true, adminAuthed := false }
            { file := .absent, memory := none }).2).1 =
        { sitePassword := (read_store gensW.gid gensW.gnow true
            { file := .absent, memory := none }).1.sitePassword
          adminPassword := (read_store gensW.gid gensW.gnow true
            { file := .absent, memory := none }).1.adminPassword
          notes := (read_store gensW.gid gensW.gnow true
              { file := .absent, memory := none }).1.notes ++
            [{ id := bytesToHex gensW.tokBytes
               title := stripOrDefault (formGet [("title", "  ")] "title")
               content := ""
               updatedAt := gensW.now }] } ∧
      (bytesToHex gensW.tokBytes).length = 12 ∧
      ∀ c ∈ (bytesToHex gensW.tokBytes).data, c ∈ hexDigits :=
  claim6_create_note gensW (fun _ => "zz") (fun _ => "ww") true [("title", "  ")]
    { siteAuthed := true, adminAuthed := false } { file := .absent, memory := none }
    rfl (by intro i; simp [gensW]) (by intro i; simp [gensW]) (by decide) (by decide)

/-! Claim C7 (note update). -/

/-- Claim C7: for a site-authed session and any save route
`POST /notes/{id}/save`, the stored document afterwards differs from the
one loaded during the request only in that the first note whose id matches
has its title (placeholder-on-empty), content and timestamp overwritten
(`updateFirstNote`); both passwords and all other notes are unchanged;
when no note matches, the stored document is identical to the one before
(silent no-op); and the response is always a redirect to the notes
list. -/
theorem claim7_update_note (g : Gens) (g2id g2now : Nat → String) (diskOk : Bool)
    (req : Request) (nid : String) (s : Session) (st : StoreState)
    (hroute : routeOf req.method req.path = .noteSave nid)
    (hs : s.siteAuthed = true)
    (hgid : ∀ i, g.gid i ≠ "") (hgnow : ∀ i, g.gnow i ≠ "") (hnow : g.now ≠ "") :
    (app g diskOk req s st).1 = .redirect "/notes" (some s) ∧
      (read_store g2id g2now diskOk (app g diskOk req s st).2).1 =
        { sitePassword := (read_store g.gid g.gnow diskOk st).1.sitePassword
          adminPassword := (read_store g.gid g.gnow diskOk st).1.adminPassword
          notes := updateFirstNote nid (stripOrDefault (formGet req.form "title"))
            (formGet req.form "content") g.now (read_store g.gid g.gnow diskOk st).1.notes } ∧
      ((∀ n ∈ (read_store g.gid g.gnow diskOk st).1.notes, n.id ≠ nid) →
        (read_store g2id g2now diskOk (app g diskOk req s st).2).1 =
          (read_store g.gid g.gnow diskOk st).1) := by
  have hgate : require_site s = none := by simp [require_site, hs]
  have hd0 : StoreWF (read_store g.gid g.gnow diskOk st).1 :=
    read_store_WF g.gid g.gnow hgid hgnow diskOk st
  have hWF2 : StoreWF
      { sitePassword := (read_store g.gid g.gnow diskOk st).1.sitePassword
        adminPassword := (read_store g.gid g.gnow diskOk st).1.adminPassword
        notes := updateFirstNote nid (stripOrDefault (formGet req.form "title"))
          (formGet req.form "content") g.now (read_store g.gid g.gnow diskOk st).1.notes } :=
    fun n hn => updateFirstNote_WF nid _ _ _ (stripOrDefault_ne_empty _) hnow _ hd0 n hn
  have hmain : (read_store g2id g2now diskOk (app g diskOk req s st).2).1 =
      { sitePassword := (read_store g.gid g.gnow diskOk st).1.sitePassword
        adminPassword := (read_store g.gid g.gnow diskOk st).1.adminPassword
        notes := updateFirstNote nid (stripOrDefault (formGet req.form "title"))
          (formGet req.form "content") g.now (read_store g.gid g.gnow diskOk st).1.notes } := by
    unfold app
    rw [hroute]
    simp only [handle, hgate]
    exact read_after_write g.gid g.gnow g2id g2now diskOk _ _ hWF2
  refine ⟨?_, hmain, ?_⟩
  · unfold app
    rw [hroute]
    simp [handle, hgate]
  · intro hnone
    rw [hmain, updateFirstNote_noMatch _ _ _ _ _ hnone]

/-- Claim C7, witness: a save posted to the non-existent id
`"nonexistent"` with title `"B"` leaves the store holding exactly the
original note `"A"`, unmodified. -/
theorem claim7_update_note_witness :
    (app gensW true
        { method := "POST", path := "/notes/nonexistent/save",
          form := [("title", "B"), ("content", "c")] }
        { siteAuthed := true, adminAuthed := false }
        { file := .content (storeToJson
            { sitePassword := "1234", adminPassword := "admin123",
              notes := [{ id := "a1", title := "A", content := "", updatedAt := "t1" }] }),
          memory := none }).1 =
        .redirect "/notes" (some { siteAuthed := true, adminAuthed := false }) ∧
      (read_store (fun _ => "zz") (fun _ => "ww") true
          (app gensW true
            { method := "POST", path := "/notes/nonexistent/save",
              form := [("title", "B"), ("content", "c")] }
            { siteAuthed := true, adminAuthed := false }
            { file := .content (storeToJson
                { sitePassword := "1234", adminPassword := "admin123",
                  notes := [{ id := "a1", title := "A", content := "", updatedAt := "t1" }] }),
              memory := none }).2).1 =
        { sitePassword := "1234", adminPassword := "admin123",
          notes := [{ id := "a1", title := "A", content := "", updatedAt := "t1" }] } := by
  have h := claim7_update_note gensW (fun _ => "zz") (fun _ => "ww") true
    { method := "POST", path := "/notes/nonexistent/save",
      form := [("title", "B"), ("content", "c")] } "nonexistent"
    { siteAuthed := true, adminAuthed := false }
    { file := .content (storeToJson
        { sitePassword := "1234", adminPassword := "admin123",
          notes := [{ id := "a1", title := "A", content := "", updatedAt := "t1" }] }),
      memory := none }
    (by decide) rfl (by intro i; simp [gensW]) (by intro i; simp [gensW])
    (by simp [gensW])
  refine ⟨h.1, ?_⟩
  have h3 := h.2.2 (by decide)
  rw [h3]
  decide

/-! Claim C8 (note deletion). -/

/-- Claim C8: for an admin-authed session (both flags true) and any delete
route `POST /admin/delete/{id}`, the stored document afterwards is the one
loaded during the request with exactly the notes whose id equals the given
id filtered out — order of the remaining notes and both passwords
preserved — and the response redirects to the admin panel `/admin`. -/
theorem claim8_delete_note (g : Gens) (g2id g2now : Nat → String) (diskOk : Bool)
    (req : Request) (nid : String) (s : Session) (st : StoreState)
    (hroute : routeOf req.method req.path = .adminDelete nid)
    (hs1 : s.siteAuthed = true) (hs2 : s.adminAuthed = true)
    (hgid : ∀ i, g.gid i ≠ "") (hgnow : ∀ i, g.gnow i ≠ "") :
    (app g diskOk req s st).1 = .redirect "/admin" (some s) ∧
      (read_store g2id g2now diskOk (app g diskOk req s st).2).1 =
        { sitePassword := (read_store g.gid g.gnow diskOk st).1.sitePassword
          adminPassword := (read_store g.gid g.gnow diskOk st).1.adminPassword
          notes := (read_store g.gid g.gnow diskOk st).1.notes.filter
            (fun n => n.id != nid) } := by
  have hgate : require_admin s = none := by simp [require_admin, hs1, hs2]
  have hd0 : StoreWF (read_store g.gid g.gnow diskOk st).1 :=
    read_store_WF g.gid g.gnow hgid hgnow diskOk st
  have hWF2 : StoreWF
      { sitePassword := (read_store g.gid g.gnow diskOk st).1.sitePassword
        adminPassword := (read_store g.gid g.gnow diskOk st).1.adminPassword
        notes := (read_store g.gid g.gnow diskOk st).1.notes.filter
          (fun n => n.id != nid) } :=
    fun n hn => hd0 n (List.mem_of_mem_filter hn)
  constructor
  · unfold app
    rw [hroute]
    simp [handle, hgate]
  · unfold app
    rw [hroute]
    simp only [handle, hgate]
    exact read_after_write g.gid g.gnow g2id g2now diskOk _ _ hWF2

/-- Claim C8, witness: with notes `"a1"`, `"a2"` stored, deleting `"a1"`
leaves exactly `"a2"`. -/
theorem claim8_delete_note_witness :
    (app gensW true { method := "POST", path := "/admin/delete/a1", form := [] }
        { siteAuthed := true, adminAuthed := true }
        { file := .content (storeToJson
            { sitePassword := "1234", adminPassword := "admin123",
              notes := [{ id := "a1", title := "A", content := "", updatedAt := "t1" },
                        { id := "a2", title := "B", content := "", updatedAt := "t2" }] }),
          memory := none }).1 =
        .redirect "/admin" (some { siteAuthed := true, adminAuthed := true }) ∧
      (read_store (fun _ => "zz") (fun _ => "ww") true
          (app gensW true { method := "POST", path := "/admin/delete/a1", form := [] }
            { siteAuthed := true, adminAuthed := true }
            { file := .content (storeToJson
                { sitePassword := "1234", adminPassword := "admin123",
                  notes := [{ id := "a1", title := "A", content := "", updatedAt := "t1" },
                            { id := "a2", title := "B", content := "", updatedAt := "t2" }] }),
              memory := none }).2).1 =
        { sitePassword := "1234", adminPassword := "admin123",
          notes := [{ id := "a2", title := "B", content := "", updatedAt := "t2" }] } := by
  have h := claim8_delete_note gensW (fun _ => "zz") (fun _ => "ww") true
    { method := "POST", path := "/admin/delete/a1", form := [] } "a1"
    { siteAuthed := true, adminAuthed := true }
    { file := .content (storeToJson
        { sitePassword := "1234", adminPassword := "admin123",
          notes := [{ id := "a1", title := "A", content := "", updatedAt := "t1" },
                    { id := "a2", title := "B", content := "", updatedAt := "t2" }] }),
      memory := none }
    (by decide) rfl rfl (by intro i; simp [gensW]) (by intro i; simp [gensW])
  refine ⟨h.1, ?_⟩
  rw [h.2]
  decide

end NoteFlux
